import Mathlib

/-!
Verification development for the local document converter service
(`src/services/local-converter.service.ts`).

The service's pure computational core is embedded shallowly:

* `formatOutput` — the preview formatter (JSON / HTML / passthrough branches).
  The JSON branch of the source calls `new Date().toISOString()`; that clock
  reading is made an explicit `now` argument here.
* `processPDF` — page-by-page text extraction; a PDF is modelled as the list
  of its pages, each page being the list of its text runs (the `item.str`
  values delivered by the page's text-content collection, in stream order).
* `processEPUB` — archive entry filtering, sorting and concatenation; an
  archive is modelled as the list of its entries (path, entry text) in
  physical order, and the per-document HTML-to-markdown conversion
  (DOMParser + turndown in the source) is an opaque `render` parameter.
  The comparator used by the source is `String.prototype.localeCompare`,
  modelled by `localeCmp` below.
* `generateFile`'s PDF branch — the pagination loop, with jsPDF's drawing
  calls recorded as a list of (page index, vertical cursor) pairs.
* `createEPUB` — the five generated archive entries in insertion order;
  the two `Date.now()` calls are modelled by an explicit `now` argument.
* `convert` — the orchestrator's try/catch boundary; the awaited extraction
  outcome is modelled as an `Except` value.
-/

namespace LocalConverter

/-- Concatenation of a list of strings; models JS `array.join('')`. -/
def concatAll : List String → String
  | [] => ""
  | s :: rest => s ++ concatAll rest

/-- Lowercase hexadecimal digit, as produced by JSON.stringify's escaper. -/
def hexDigit (n : Nat) : Char :=
  if n < 10 then Char.ofNat (48 + n) else Char.ofNat (87 + n)

/-- Four-digit lowercase hex rendering of a code point below 0x10000. -/
def hex4 (n : Nat) : String :=
  String.mk [hexDigit (n / 4096 % 16), hexDigit (n / 256 % 16),
             hexDigit (n / 16 % 16), hexDigit (n % 16)]

/-- Escaping of one character inside a JSON string literal, following the
JSON.stringify quoting rules (double quote, backslash, the short control
escapes, and a hex escape for the remaining control characters). -/
def jsonEscapeChar (c : Char) : String :=
  if c = '"' then "\\\""
  else if c = '\\' then "\\\\"
  else if c = '\n' then "\\n"
  else if c = '\r' then "\\r"
  else if c = '\t' then "\\t"
  else if c = Char.ofNat 8 then "\\b"
  else if c = Char.ofNat 12 then "\\f"
  else if c.toNat < 32 then "\\u" ++ hex4 c.toNat
  else String.singleton c

/-- A JSON string literal for `s`: quote, escape each character, quote. -/
def jsonQuote (s : String) : String :=
  "\"" ++ concatAll (s.data.map jsonEscapeChar) ++ "\""

/-- Models `JSON.stringify({ generatedAt: now, content: text }, null, 2)` from
line 223 of the source: a two-key object pretty-printed with 2-space
indentation. -/
def jsonStringify2 (now text : String) : String :=
  "\x7b\n  \"generatedAt\": " ++ jsonQuote now ++ ",\n  \"content\": " ++
    jsonQuote text ++ "\n\x7d"

/-- Splitting a character list at every occurrence of the separator
character; models JS `String.prototype.split` with a one-character
separator (adjacent separators and separators at either end produce empty
segments, and the empty string yields one empty segment). -/
def splitChar (c : Char) : List Char → List (List Char)
  | [] => [[]]
  | x :: xs =>
    match splitChar c xs with
    | [] => [[]]
    | seg :: rest => if x = c then [] :: seg :: rest else (x :: seg) :: rest

/-- Models `text.split('\n')` from line 230 of the source. -/
def splitLines (s : String) : List String :=
  (splitChar '\n' s.data).map String.mk

/-- The JS whitespace class of `String.prototype.trim`, restricted to the
ASCII range (the full class also holds Unicode space separators, which are
irrelevant to this development). -/
def jsWhitespaceChar (ch : Char) : Bool :=
  ch = ' ' || ch = '\t' || ch = '\n' || ch = '\r' ||
    ch = Char.ofNat 11 || ch = Char.ofNat 12

/-- Models JS `String.prototype.trim`: strip leading and trailing
whitespace. -/
def jsTrim (s : String) : String :=
  String.mk (((s.data.dropWhile jsWhitespaceChar).reverse.dropWhile
    jsWhitespaceChar).reverse)

/-- One line of the HTML branch: `l.trim() ? `<p>${l}</p>` : ''` from
line 230 of the source (a line blank after trimming contributes nothing;
note the untrimmed line is what gets wrapped). -/
def htmlLine (l : String) : String :=
  if jsTrim l = "" then "" else "<p>" ++ l ++ "</p>"

/-- Embedding of `formatOutput` (source lines 221-233).  The source's JSON
branch reads the clock via `new Date().toISOString()`; that reading is the
explicit first argument `now` here, so that the function's dependence on
the clock is visible in the embedding. -/
def formatOutput (now text format : String) : String :=
  if format = "JSON" then
    jsonStringify2 now text
  else if format = "PDF" ∨ format = "EPUB" then
    text
  else if format = "HTML" then
    "<div class=\"converted-content\">\n" ++
      concatAll ((splitLines text).map htmlLine) ++ "\n</div>"
  else text

/-- Embedding of `processPDF`'s accumulation loop (source lines 178-189):
starting from the empty string, each page appends two newlines and then the
page's text runs joined by single spaces. -/
def processPDF (pages : List (List String)) : String :=
  pages.foldl (fun fullText page => fullText ++ ("\n\n" ++ String.intercalate " " page)) ""

/-- Embedding of the orchestrator's try/catch (source lines 34-52).  The
awaited extraction result is passed as an `Except` value: `.ok content` is a
successful extraction, `.error msg` an exception whose `message` property
holds `msg` (the empty string models a falsy message, for which the source's
`err.message || 'Unknown error'` substitutes the fallback text). -/
def convert (extracted : Except String String) (targetFormat now : String) : String :=
  match extracted with
  | .ok content => formatOutput now content targetFormat
  | .error msg => "PROCESSING ERROR: " ++ (if msg = "" then "Unknown error" else msg)

/-- ASCII lowercasing of one character; models the effect of the
case-insensitive flag of the source's content-document regular expression
(`/\.(xhtml|html|htm)$/i`, ASCII pattern) on line 203. -/
def asciiLower (c : Char) : Char :=
  if 'A' ≤ c ∧ c ≤ 'Z' then Char.ofNat (c.toNat + 32) else c

/-- Substring containment on character lists; models JS
`String.prototype.includes`. -/
def containsSub (needle hay : List Char) : Bool :=
  hay.tails.any fun t => needle.isPrefixOf t

/-- Embedding of the entry filter on line 203 of the source:
`filename.match(/\.(xhtml|html|htm)$/i) && !filename.startsWith('__') &&
!filename.includes('nav') && !filename.includes('toc')`.  The suffix test is
ASCII case-insensitive; the reserved-prefix and substring tests are
case-sensitive. -/
def matchesContentDoc (filename : String) : Bool :=
  let low := filename.data.map asciiLower
  (List.isSuffixOf ".xhtml".data low || List.isSuffixOf ".html".data low ||
      List.isSuffixOf ".htm".data low)
    && !(List.isPrefixOf "__".data filename.data)
    && !(containsSub "nav".data filename.data)
    && !(containsSub "toc".data filename.data)

/-- Lexicographic comparison of two lists of naturals, shorter list first on
a tie; the order underlying the comparator model below. -/
def lexNat : List Nat → List Nat → Ordering
  | [], [] => .eq
  | [], _ :: _ => .lt
  | _ :: _, [] => .gt
  | a :: as, b :: bs =>
    match compare a b with
    | .eq => lexNat as bs
    | o => o

/-- Primary collation key: the code points of the ASCII-lowercased string. -/
def primaryKey (s : String) : List Nat :=
  s.data.map fun c => (asciiLower c).toNat

/-- Case key: 1 for an ASCII uppercase letter, 0 otherwise (lowercase sorts
before uppercase on a primary tie). -/
def caseKey (s : String) : List Nat :=
  s.data.map fun c => if 'A' ≤ c ∧ c ≤ 'Z' then 1 else 0

/-- Modelled JS builtin: `String.prototype.localeCompare` (line 209 of the
source) under the default CLDR root collation, restricted to the ASCII
strings this development evaluates it on: letters compare
case-insensitively first (primary strength), and on a primary tie lowercase
precedes uppercase.  This differs from ordinal code-point comparison, which
would order every uppercase letter before every lowercase one. -/
def localeCmp (s t : String) : Ordering :=
  match lexNat (primaryKey s) (primaryKey t) with
  | .eq => lexNat (caseKey s) (caseKey t)
  | o => o

/-- The comparator result `a.name.localeCompare(b.name) <= 0`, i.e. "a does
not sort after b", as used by the stable `Array.prototype.sort` call. -/
def lcLe (s t : String) : Bool :=
  match localeCmp s t with
  | .gt => false
  | _ => true

/-- Sort relation on (path, entry text) pairs induced by the comparator
`(a, b) => a.name.localeCompare(b.name)` on line 209 of the source. -/
def epubLe (a b : String × String) : Prop := lcLe a.1 b.1 = true

instance : DecidableRel epubLe := fun a b =>
  inferInstanceAs (Decidable (lcLe a.1 b.1 = true))

/-- Ordinal (code-point) order on paths: the order the specification claims
the matched documents are sorted in.  Stated from the spec's words, for
comparison with the source's locale-aware comparator. -/
def ordinalLe (a b : String × String) : Prop :=
  lexNat (a.1.data.map Char.toNat) (b.1.data.map Char.toNat) ≠ .gt

instance : DecidableRel ordinalLe := fun a b =>
  inferInstanceAs (Decidable
    (lexNat (a.1.data.map Char.toNat) (b.1.data.map Char.toNat) ≠ .gt))

/-- Sentinel returned when the accumulated text is empty (source line 218). -/
def epubSentinel : String := "Error: No text content extracted from EPUB."

/-- Embedding of `processEPUB` (source lines 192-219).  `entries` lists the
archive's entries as (path, entry text) pairs in physical order; `render`
models the per-document `DOMParser` + turndown conversion of an entry's text
to markdown.  The concurrent reads complete in some arbitrary order and are
then sorted with the `localeCompare` comparator by a stable sort (JS
`Array.prototype.sort`), modelled by a stable insertion sort; arrival order
is taken to be the physical order (for names without a comparator tie the
sorted result is the same for every arrival order). -/
def processEPUB (render : String → String) (entries : List (String × String)) : String :=
  let htmlFiles := entries.filter fun e => matchesContentDoc e.1
  let sorted := List.insertionSort epubLe htmlFiles
  let combined := sorted.foldl (fun acc f => acc ++ ("\n\n" ++ render f.2)) ""
  if combined = "" then epubSentinel else combined

/-- Character-by-character replacement; models a JS global regex replace
whose pattern is the single character `c` (the four replaces on line 123 of
the source all have single-character patterns). -/
def replaceChar (c : Char) (r : List Char) (l : List Char) : List Char :=
  (l.map fun ch => if ch = c then r else [ch]).flatten

/-- Embedding of line 123 of the source:
`content.replace(/&/g,'&amp;').replace(/</g,'&lt;').replace(/>/g,'&gt;').replace(/\n/g,'<br/>')`,
applied left to right. -/
def cleanContentChars (l : List Char) : List Char :=
  replaceChar '\n' "<br/>".data
    (replaceChar '>' "&gt;".data
      (replaceChar '<' "&lt;".data
        (replaceChar '&' "&amp;".data l)))

/-- String-level wrapper for the body-text XML escaping of `createEPUB`. -/
def cleanContent (s : String) : String := String.mk (cleanContentChars s.data)

/-- Character-wise escaping map stated from the spec's words (claim C9): `&`
to `&amp;`, `<` to `&lt;`, `>` to `&gt;`, newline to `<br/>`, everything
else unchanged. -/
def xmlEscapeChar (c : Char) : List Char :=
  if c = '&' then "&amp;".data
  else if c = '<' then "&lt;".data
  else if c = '>' then "&gt;".data
  else if c = '\n' then "<br/>".data
  else [c]

/-- One simultaneous character-wise pass of `xmlEscapeChar`. -/
def xmlEscapeAll (l : List Char) : List Char :=
  (l.map xmlEscapeChar).flatten

/-- Fixed content of `META-INF/container.xml` (source lines 114-119). -/
def containerXml : String :=
  "<?xml version=\"1.0\"?>\n<container version=\"1.0\" xmlns=\"urn:oasis:names:tc:opendocument:xmlns:container\">\n   <rootfiles>\n      <rootfile full-path=\"OEBPS/content.opf\" media-type=\"application/oebps-package+xml\"/>\n   </rootfiles>\n</container>"

/-- Template chunk of `OEBPS/content.xhtml` before the first title
interpolation (source lines 125-128). -/
def xhtmlHead : String :=
  "<?xml version=\"1.0\" encoding=\"UTF-8\" standalone=\"no\"?>\n<!DOCTYPE html>\n<html xmlns=\"http://www.w3.org/1999/xhtml\">\n<head><title>"

/-- Template chunk between the two title interpolations, up to the `h1`
opening tag. -/
def xhtmlAfterTitle : String := "</title></head>\n<body>\n"

/-- Template chunk after the `h1` element. -/
def xhtmlAfterH1 : String := "\n<div style=\"white-space: pre-wrap;\">"

/-- Template chunk after the escaped body content. -/
def xhtmlTail : String := "</div>\n</body>\n</html>"

/-- The generated `OEBPS/content.xhtml` document (source lines 125-133):
the template chunks with the title interpolated twice (verbatim) and the
escaped body content once. -/
def xhtmlDoc (title clean : String) : String :=
  xhtmlHead ++ title ++ xhtmlAfterTitle ++ ("<h1>" ++ title ++ "</h1>") ++
    xhtmlAfterH1 ++ clean ++ xhtmlTail

/-- Template chunk of `OEBPS/content.opf` before the title element. -/
def opfHead : String :=
  "<?xml version=\"1.0\" encoding=\"UTF-8\"?>\n<package xmlns=\"http://www.idpf.org/2007/opf\" unique-identifier=\"BookId\" version=\"2.0\">\n    <metadata xmlns:dc=\"http://purl.org/dc/elements/1.1/\">\n        "

/-- Template chunk of the OPF between the title element and the uuid. -/
def opfAfterTitle : String :=
  "\n        <dc:language>en</dc:language>\n        <dc:identifier id=\"BookId\">urn:uuid:"

/-- Template chunk of the OPF after the uuid interpolation. -/
def opfTail : String :=
  "</dc:identifier>\n    </metadata>\n    <manifest>\n        <item id=\"ncx\" href=\"toc.ncx\" media-type=\"application/x-dtbncx+xml\"/>\n        <item id=\"content\" href=\"content.xhtml\" media-type=\"application/xhtml+xml\"/>\n    </manifest>\n    <spine toc=\"ncx\">\n        <itemref idref=\"content\"/>\n    </spine>\n</package>"

/-- The generated `OEBPS/content.opf` document (source lines 136-150), with
the title interpolated verbatim and `Date.now()` modelled by `now`. -/
def opfDoc (title : String) (now : Nat) : String :=
  opfHead ++ ("<dc:title>" ++ title ++ "</dc:title>") ++ opfAfterTitle ++
    toString now ++ opfTail

/-- Template chunk of `OEBPS/toc.ncx` before the uuid interpolation. -/
def ncxHead : String :=
  "<?xml version=\"1.0\" encoding=\"UTF-8\"?>\n<ncx xmlns=\"http://www.daisy.org/z3986/2005/ncx/\" version=\"2005-1\">\n    <head><meta name=\"dtb:uid\" content=\"urn:uuid:"

/-- Template chunk of the NCX between the uuid and the document title. -/
def ncxAfterUid : String := "\"/></head>\n    "

/-- Template chunk of the NCX after the document title element. -/
def ncxTail : String :=
  "\n    <navMap>\n        <navPoint id=\"navPoint-1\" playOrder=\"1\">\n            <navLabel><text>Start</text></navLabel>\n            <content src=\"content.xhtml\"/>\n        </navPoint>\n    </navMap>\n</ncx>"

/-- The generated `OEBPS/toc.ncx` document (source lines 154-164), with the
title interpolated verbatim. -/
def ncxDoc (title : String) (now : Nat) : String :=
  ncxHead ++ toString now ++ ncxAfterUid ++
    ("<docTitle><text>" ++ title ++ "</text></docTitle>") ++ ncxTail

/-- One archive entry as handed to the Archive Codec: path, text content,
and the per-file compression option (`some "STORE"` models the
`{ compression: "STORE" }` option object; `none` means no per-file option
was passed). -/
structure ZipEntry where
  path : String
  body : String
  compression : Option String
deriving DecidableEq

/-- Embedding of `createEPUB` (source lines 107-167): the five `zip.file`
calls in program order, so the produced entry list is in insertion order.
The source evaluates `Date.now()` twice (OPF and NCX); both readings are
modelled by the single argument `now`, which is irrelevant to every claim
below. -/
def createEPUB (now : Nat) (title content : String) : List ZipEntry :=
  [⟨"mimetype", "application/epub+zip", some "STORE"⟩,
   ⟨"META-INF/container.xml", containerXml, none⟩,
   ⟨"OEBPS/content.xhtml", xhtmlDoc title (cleanContent content), none⟩,
   ⟨"OEBPS/content.opf", opfDoc title now, none⟩,
   ⟨"OEBPS/toc.ncx", ncxDoc title now, none⟩]

/-- Substring occurrence predicate on strings: `pat` occurs contiguously in
`hay`. -/
def OccursIn (pat hay : String) : Prop := ∃ u v, hay = u ++ pat ++ v

/-- Decidable substring check used for concrete evaluations. -/
def occursInB (pat hay : String) : Bool := containsSub pat.data hay.data

/-- Height in millimetres of a jsPDF default page (portrait A4, unit mm):
`doc.internal.pageSize.getHeight()` returns 841.89 pt divided by the mm
scale factor 72 / 25.4, i.e. 841.89 * 25.4 / 72 = 3564001 / 12000
(approximately 297.00008). -/
def pageHeightMM : ℚ := 3564001 / 12000

/-- State of the pagination loop of `generateFile`'s PDF branch (source
lines 74-83): current page number, current vertical cursor, and the list of
(page, vertical position) pairs at which `doc.text` has drawn a line (the
title drawn at vertical position 20 of page 1 included). -/
structure PdfState where
  page : Nat
  cursorY : Nat
  drawn : List (Nat × Nat)
deriving DecidableEq

/-- One iteration of the pagination loop (source lines 76-83): when the
cursor has passed the content-area bottom bound `pageHeight - margin` (the
margin is 15), a page is added and the cursor reset to the top offset 20;
the line is then drawn at the cursor and the cursor advanced by the line
height 6. -/
def pdfStep (st : PdfState) (_line : String) : PdfState :=
  if (st.cursorY : ℚ) > pageHeightMM - 15 then
    ⟨st.page + 1, 26, st.drawn ++ [(st.page + 1, 20)]⟩
  else
    ⟨st.page, st.cursorY + 6, st.drawn ++ [(st.page, st.cursorY)]⟩

/-- Embedding of the PDF branch of `generateFile` (source lines 59-85):
`splitText` is the wrapped line list produced by `doc.splitTextToSize`; the
title has been drawn at vertical position 20 of page 1, and the body loop
starts with the cursor at 30 on page 1. -/
def generatePDF (splitText : List String) : PdfState :=
  splitText.foldl pdfStep ⟨1, 30, [(1, 20)]⟩

/-- Number of body lines the first page can hold: lines are drawn at
vertical positions 30, 36, ... and the bound check passes while the cursor
is at most `pageHeight - 15` (about 282.00008), so positions 30 + 6k for
k = 0..42. -/
def firstPageCapacity : Nat := 43

/-! Helper lemmas. -/

theorem foldl_concat {α : Type} (g : α → String) :
    ∀ (l : List α) (s : String),
      l.foldl (fun acc x => acc ++ g x) s = s ++ concatAll (l.map g)
  | [], s => by simp [concatAll, String.append_empty]
  | x :: l, s => by
    simp only [List.foldl_cons, List.map_cons, concatAll]
    rw [foldl_concat g l (s ++ g x), String.append_assoc]

theorem concatAll_htmlLine : ∀ xs : List String,
    concatAll (xs.map htmlLine) =
      concatAll ((xs.filter fun l => !(jsTrim l == "")).map fun l => "<p>" ++ l ++ "</p>")
  | [] => rfl
  | x :: xs => by
    by_cases h : jsTrim x = ""
    · simp [htmlLine, h, concatAll, concatAll_htmlLine xs, String.empty_append,
        List.filter_cons]
    · simp [htmlLine, h, concatAll, concatAll_htmlLine xs, List.filter_cons]

theorem lexNat_eq_iff : ∀ a b : List Nat, lexNat a b = .eq ↔ a = b
  | [], [] => by simp [lexNat]
  | [], _ :: _ => by simp [lexNat]
  | _ :: _, [] => by simp [lexNat]
  | a :: as, b :: bs => by
    simp only [lexNat]
    rcases Nat.lt_trichotomy a b with hl | rfl | hg
    · rw [Nat.compare_eq_lt.mpr hl]
      simp [hl.ne]
    · rw [Nat.compare_eq_eq.mpr rfl]
      simp [lexNat_eq_iff as bs]
    · rw [Nat.compare_eq_gt.mpr hg]
      simp [hg.ne']

theorem lexNat_swap : ∀ a b : List Nat, lexNat b a = (lexNat a b).swap
  | [], [] => rfl
  | [], _ :: _ => rfl
  | _ :: _, [] => rfl
  | a :: as, b :: bs => by
    simp only [lexNat]
    rw [← Nat.compare_swap a b]
    cases compare a b <;> simp [Ordering.swap, lexNat_swap as bs]

theorem lexNat_lt_trans : ∀ a b c : List Nat,
    lexNat a b = .lt → lexNat b c = .lt → lexNat a c = .lt
  | [], [], _, h1, _ => by simp [lexNat] at h1
  | [], _ :: _, [], _, h2 => by simp [lexNat] at h2
  | [], _ :: _, _ :: _, _, _ => rfl
  | _ :: _, [], _, h1, _ => by simp [lexNat] at h1
  | _ :: _, _ :: _, [], _, h2 => by simp [lexNat] at h2
  | x :: xs, y :: ys, z :: zs, h1, h2 => by
    simp only [lexNat] at h1 h2 ⊢
    cases hxy : compare x y <;> rw [hxy] at h1
    case lt =>
      cases hyz : compare y z <;> rw [hyz] at h2
      case lt =>
        rw [Nat.compare_eq_lt.mpr
          (Nat.lt_trans (Nat.compare_eq_lt.mp hxy) (Nat.compare_eq_lt.mp hyz))]
      case eq =>
        rw [← Nat.compare_eq_eq.mp hyz, hxy]
      case gt => exact absurd h2 (by simp)
    case eq =>
      rw [Nat.compare_eq_eq.mp hxy]
      cases hyz : compare y z <;> rw [hyz] at h2
      case eq => exact lexNat_lt_trans xs ys zs h1 h2
      case gt => exact absurd h2 (by simp)
    case gt => exact absurd h1 (by simp)

theorem lexNat_le_trans (a b c : List Nat) (h1 : lexNat a b ≠ .gt)
    (h2 : lexNat b c ≠ .gt) : lexNat a c ≠ .gt := by
  have hchar : ∀ x y : List Nat, lexNat x y ≠ .gt ↔ lexNat x y = .lt ∨ x = y := by
    intro x y
    rw [← lexNat_eq_iff x y]
    cases lexNat x y <;> simp
  rw [hchar] at h1 h2 ⊢
  rcases h1 with h1 | h1
  · rcases h2 with h2 | h2
    · exact Or.inl (lexNat_lt_trans _ _ _ h1 h2)
    · rw [← h2]
      exact Or.inl h1
  · rw [h1]
    exact h2

theorem localeCmp_swap (s t : String) : localeCmp t s = (localeCmp s t).swap := by
  unfold localeCmp
  rw [lexNat_swap (primaryKey s) (primaryKey t), lexNat_swap (caseKey s) (caseKey t)]
  cases lexNat (primaryKey s) (primaryKey t) <;> rfl

theorem localeCmp_le_trans (s t u : String) (h1 : localeCmp s t ≠ .gt)
    (h2 : localeCmp t u ≠ .gt) : localeCmp s u ≠ .gt := by
  unfold localeCmp at h1 h2 ⊢
  cases hp1 : lexNat (primaryKey s) (primaryKey t) <;> rw [hp1] at h1 <;>
    cases hp2 : lexNat (primaryKey t) (primaryKey u) <;> rw [hp2] at h2
  · rw [lexNat_lt_trans _ _ _ hp1 hp2]
    simp
  · rw [← (lexNat_eq_iff _ _).mp hp2, hp1]
    simp
  · exact absurd rfl h2
  · rw [(lexNat_eq_iff _ _).mp hp1, hp2]
    simp
  · rw [(lexNat_eq_iff _ _).mpr (((lexNat_eq_iff _ _).mp hp1).trans ((lexNat_eq_iff _ _).mp hp2))]
    exact lexNat_le_trans _ _ _ h1 h2
  · exact absurd rfl h2
  · exact absurd rfl h1
  · exact absurd rfl h1
  · exact absurd rfl h1

theorem lcLe_iff (s t : String) : lcLe s t = true ↔ localeCmp s t ≠ .gt := by
  unfold lcLe
  cases h : localeCmp s t <;> simp

instance : IsTotal (String × String) epubLe := ⟨by
  intro a b
  unfold epubLe
  rw [lcLe_iff, lcLe_iff]
  rcases h : localeCmp a.1 b.1
  · exact Or.inl (by simp [h])
  · exact Or.inl (by simp [h])
  · refine Or.inr ?_
    rw [localeCmp_swap a.1 b.1, h]
    simp [Ordering.swap]⟩

instance : IsTrans (String × String) epubLe := ⟨by
  intro a b c h1 h2
  unfold epubLe at h1 h2 ⊢
  rw [lcLe_iff] at h1 h2 ⊢
  exact localeCmp_le_trans _ _ _ h1 h2⟩

theorem concatAll_sep_ne_empty (g : (String × String) → String) (f : String × String)
    (xs : List (String × String)) :
    concatAll ((f :: xs).map fun x => "\n\n" ++ g x) ≠ "" := by
  simp only [List.map_cons, concatAll]
  intro h
  have hd := congrArg String.data h
  rw [String.data_append, String.data_append] at hd
  simp only [List.append_eq_nil] at hd
  exact absurd hd.1.1 (by decide)

theorem pdf_page_mono (lines : List String) (st : PdfState) :
    st.page ≤ (lines.foldl pdfStep st).page := by
  induction lines generalizing st with
  | nil => exact Nat.le_refl _
  | cons l ls ih =>
    rw [List.foldl_cons]
    refine Nat.le_trans ?_ (ih (pdfStep st l))
    unfold pdfStep
    split
    · exact Nat.le_succ _
    · exact Nat.le_refl _

theorem pdf_page_stays_cursor (lines : List String) (st : PdfState)
    (h : (lines.foldl pdfStep st).page = st.page) :
    ∀ i < lines.length, ((st.cursorY + 6 * i : ℕ) : ℚ) ≤ pageHeightMM - 15 := by
  induction lines generalizing st with
  | nil =>
    intro i hi
    exact absurd hi (by simp)
  | cons l ls ih =>
    rw [List.foldl_cons] at h
    by_cases hc : (st.cursorY : ℚ) > pageHeightMM - 15
    · exfalso
      have hstep : (pdfStep st l).page = st.page + 1 := by
        unfold pdfStep
        rw [if_pos hc]
      have hmono := pdf_page_mono ls (pdfStep st l)
      omega
    · have hstep : pdfStep st l = ⟨st.page, st.cursorY + 6, st.drawn ++ [(st.page, st.cursorY)]⟩ := by
        unfold pdfStep
        rw [if_neg hc]
      rw [hstep] at h
      intro i hi
      cases i with
      | zero =>
        simpa using not_lt.mp hc
      | succ j =>
        have hj := ih ⟨st.page, st.cursorY + 6, st.drawn ++ [(st.page, st.cursorY)]⟩ h j
          (by simpa using Nat.lt_of_succ_lt_succ hi)
        have harith : st.cursorY + 6 + 6 * j = st.cursorY + 6 * (j + 1) := by omega
        simpa [harith] using hj

theorem pdf_drawn_in_range (lines : List String) (st : PdfState)
    (hcur : 20 ≤ st.cursorY)
    (hdrawn : ∀ pr ∈ st.drawn, 20 ≤ pr.2 ∧ pr.2 ≤ 282) :
    ∀ pr ∈ (lines.foldl pdfStep st).drawn, 20 ≤ pr.2 ∧ pr.2 ≤ 282 := by
  induction lines generalizing st with
  | nil => exact hdrawn
  | cons l ls ih =>
    rw [List.foldl_cons]
    by_cases hc : (st.cursorY : ℚ) > pageHeightMM - 15
    · have hstep : pdfStep st l = ⟨st.page + 1, 26, st.drawn ++ [(st.page + 1, 20)]⟩ := by
        unfold pdfStep
        rw [if_pos hc]
      rw [hstep]
      refine ih _ (by dsimp only; omega) ?_
      intro pr hpr
      rcases List.mem_append.mp hpr with hold | hnew
      · exact hdrawn pr hold
      · rcases List.mem_singleton.mp hnew with rfl
        exact ⟨Nat.le_refl _, by omega⟩
    · have hle : (st.cursorY : ℚ) ≤ pageHeightMM - 15 := not_lt.mp hc
      have hlt : (st.cursorY : ℚ) < 283 :=
        lt_of_le_of_lt hle (by norm_num [pageHeightMM])
      have hcur282 : st.cursorY ≤ 282 := by
        have : st.cursorY < 283 := by exact_mod_cast hlt
        omega
      have hstep : pdfStep st l = ⟨st.page, st.cursorY + 6, st.drawn ++ [(st.page, st.cursorY)]⟩ := by
        unfold pdfStep
        rw [if_neg hc]
      rw [hstep]
      refine ih _ (by dsimp only; omega) ?_
      intro pr hpr
      rcases List.mem_append.mp hpr with hold | hnew
      · exact hdrawn pr hold
      · rcases List.mem_singleton.mp hnew with rfl
        exact ⟨hcur, hcur282⟩

/-! Theorems for the claims. -/

/-- C1 (counterexample): the Output Formatter is not deterministic in its
arguments alone for the JSON tag — two calls with identical text and format
but different clock readings produce different output strings, because the
JSON envelope embeds the `generatedAt` timestamp. -/
theorem formatOutput_json_two_calls_differ :
    formatOutput "2020-01-01T00:00:00.000Z" "x" "JSON" ≠
      formatOutput "2021-01-01T00:00:00.000Z" "x" "JSON" := by decide

/-- C1 (amended): for every format tag other than JSON, `formatOutput` is
pure and deterministic — its result does not depend on the clock reading, so
two calls with identical text and format yield identical strings; the JSON
tag's output additionally depends on the current time. -/
theorem formatOutput_deterministic_nonJSON (n₁ n₂ text format : String)
    (h : format ≠ "JSON") :
    formatOutput n₁ text format = formatOutput n₂ text format := by
  unfold formatOutput
  rw [if_neg h, if_neg h]

/-- C1 (witness): the amended determinism theorem applied at the HTML tag. -/
theorem formatOutput_deterministic_nonJSON_w :
    "HTML" ≠ "JSON" ∧ formatOutput "A" "x" "HTML" = formatOutput "B" "x" "HTML" :=
  ⟨by decide, formatOutput_deterministic_nonJSON "A" "B" "x" "HTML" (by decide)⟩

/-- C4: `processPDF` returns the concatenation, over the pages in ascending
index order, of two newline characters followed by the page's text runs
joined by single spaces; appending one further page appends exactly one
separator plus that page's joined runs (so each of the N pages contributes
exactly one leading separator, the one of page 1 included), and a page with
zero text runs contributes only the separator. -/
theorem processPDF_concat_spec (pages : List (List String)) (page : List String) :
    processPDF pages =
        concatAll (pages.map fun p => "\n\n" ++ String.intercalate " " p)
      ∧ processPDF (pages ++ [page]) =
          processPDF pages ++ ("\n\n" ++ String.intercalate " " page)
      ∧ processPDF (pages ++ [[]]) = processPDF pages ++ "\n\n" := by
  have h2 : ∀ pg : List String, processPDF (pages ++ [pg]) =
      processPDF pages ++ ("\n\n" ++ String.intercalate " " pg) := by
    intro pg
    unfold processPDF
    rw [List.foldl_append]
    rfl
  refine ⟨?_, h2 page, ?_⟩
  · unfold processPDF
    rw [foldl_concat (fun p => "\n\n" ++ String.intercalate " " p) pages "",
      String.empty_append]
  · rw [h2 [], show String.intercalate " " [] = "" from rfl, String.append_empty]

/-- C5 (counterexample): an extraction error whose message is empty (a falsy
`err.message`) is rendered as "PROCESSING ERROR: Unknown error", not as the
prefix followed by the error's (empty) message. -/
theorem convert_empty_message_counterexample :
    convert (.error "") "Markdown" "T" = "PROCESSING ERROR: Unknown error"
      ∧ convert (.error "") "Markdown" "T" ≠ "PROCESSING ERROR: " ++ "" := by
  exact ⟨by decide, by decide⟩

/-- C5 (amended): the orchestrator never propagates an extraction error —
every error outcome yields a string of the form "PROCESSING ERROR: "
followed by some text; that text is the error's message whenever the message
is non-empty, and the fallback "Unknown error" when the message is empty. -/
theorem convert_error_prefixed (msg targetFormat now : String) :
    (∃ rest, convert (.error msg) targetFormat now = "PROCESSING ERROR: " ++ rest)
      ∧ (msg ≠ "" → convert (.error msg) targetFormat now = "PROCESSING ERROR: " ++ msg)
      ∧ convert (.error "") targetFormat now = "PROCESSING ERROR: " ++ "Unknown error" := by
  refine ⟨⟨if msg = "" then "Unknown error" else msg, rfl⟩, fun h => ?_, rfl⟩
  simp only [convert, if_neg h]

/-- C5 (witness): the amended theorem applied to a non-empty error message. -/
theorem convert_error_prefixed_w :
    "boom" ≠ "" ∧ convert (.error "boom") "HTML" "T" = "PROCESSING ERROR: " ++ "boom" :=
  ⟨by decide, (convert_error_prefixed "boom" "HTML" "T").2.1 (by decide)⟩

/-- C2 (counterexample): for the archive with physical entry order
`a.xhtml`, `B.xhtml`, the ordinal (code-point) sort order is `B.xhtml`
before `a.xhtml` (so it differs from the physical order), yet the extractor
output concatenates `a.xhtml` first — the output does not follow the
ordinal sort order, because the source sorts with `localeCompare`, under
which lowercase `a` precedes uppercase `B`. -/
theorem processEPUB_ordinal_counterexample :
    List.insertionSort ordinalLe
        (([("a.xhtml", "ALPHA"), ("B.xhtml", "BETA")] :
          List (String × String)).filter fun e => matchesContentDoc e.1) =
        [("B.xhtml", "BETA"), ("a.xhtml", "ALPHA")]
      ∧ processEPUB (fun s => s) [("a.xhtml", "ALPHA"), ("B.xhtml", "BETA")] =
          "\n\nALPHA" ++ "\n\nBETA"
      ∧ "\n\nALPHA" ++ "\n\nBETA" ≠
          concatAll ((List.insertionSort ordinalLe
            (([("a.xhtml", "ALPHA"), ("B.xhtml", "BETA")] :
              List (String × String)).filter fun e => matchesContentDoc e.1)).map
            fun f => "\n\n" ++ f.2) :=
  ⟨by decide, by decide, by decide⟩

/-- C2 (amended): `processEPUB` concatenates the matched content documents
in the order given by the locale-aware `localeCompare` comparison of their
paths (not by ordinal code-point comparison): the output equals the
separator-prefixed concatenation over the comparator-sorted matched list,
that list is sorted for the comparator relation, and on the concrete
archive with physical order `B.xhtml`, `a.xhtml` the output follows the
comparator order `a.xhtml`, `B.xhtml`, not the physical order. -/
theorem processEPUB_locale_sorted (render : String → String)
    (entries : List (String × String)) :
    processEPUB render entries =
        (if List.insertionSort epubLe (entries.filter fun e => matchesContentDoc e.1) = []
          then epubSentinel
          else concatAll
            ((List.insertionSort epubLe (entries.filter fun e => matchesContentDoc e.1)).map
              fun f => "\n\n" ++ render f.2))
      ∧ List.Sorted epubLe
          (List.insertionSort epubLe (entries.filter fun e => matchesContentDoc e.1))
      ∧ processEPUB (fun s => s) [("B.xhtml", "BETA"), ("a.xhtml", "ALPHA")] =
          "\n\nALPHA" ++ "\n\nBETA" := by
  refine ⟨?_, List.sorted_insertionSort epubLe _, by decide⟩
  simp only [processEPUB]
  rw [foldl_concat (fun f : String × String => "\n\n" ++ render f.2)
    (List.insertionSort epubLe (entries.filter fun e => matchesContentDoc e.1)) "",
    String.empty_append]
  rcases hs : List.insertionSort epubLe (entries.filter fun e => matchesContentDoc e.1) with
    _ | ⟨f, xs⟩
  · rfl
  · rw [if_neg (concatAll_sep_ne_empty (fun f => render f.2) f xs),
      if_neg (by simp)]

/-- C6: on an archive none of whose entry paths passes the content-document
filter (suffix .xhtml/.html/.htm case-insensitively, not starting with the
reserved prefix, not containing "nav" or "toc"), `processEPUB` returns
exactly the fixed sentinel message, which is not the empty string; being a
total function of the archive, it raises no error. -/
theorem processEPUB_sentinel (render : String → String)
    (entries : List (String × String))
    (h : ∀ e ∈ entries, matchesContentDoc e.1 = false) :
    processEPUB render entries = epubSentinel ∧ epubSentinel ≠ "" := by
  have hfilter : entries.filter (fun e => matchesContentDoc e.1) = [] := by
    rw [List.filter_eq_nil_iff]
    intro a ha
    simp [h a ha]
  refine ⟨?_, by decide⟩
  unfold processEPUB
  rw [hfilter]
  rfl

/-- C6 (witness): the sentinel theorem applied to a concrete archive whose
three entries (a mimetype file, an NCX, and a navigation document) all fail
the filter. -/
theorem processEPUB_sentinel_w :
    (∀ e ∈ ([("mimetype", "application/epub+zip"), ("OEBPS/toc.ncx", "x"),
        ("nav.xhtml", "y")] : List (String × String)), matchesContentDoc e.1 = false)
      ∧ processEPUB (fun s => s)
          [("mimetype", "application/epub+zip"), ("OEBPS/toc.ncx", "x"),
            ("nav.xhtml", "y")] = epubSentinel :=
  ⟨by decide,
    (processEPUB_sentinel (fun s => s)
      [("mimetype", "application/epub+zip"), ("OEBPS/toc.ncx", "x"), ("nav.xhtml", "y")]
      (by decide)).1⟩

/-- C8: the HTML tag splits the text on newline, drops every line that is
blank after trimming, wraps each remaining (untrimmed) line in a paragraph
element, joins the paragraphs with no separator and wraps the result in the
container element; in particular "hello\nworld" yields exactly the container
line, `<p>hello</p><p>world</p>`, and the closing line. -/
theorem formatOutput_html_spec (now text : String) :
    formatOutput now text "HTML" =
        "<div class=\"converted-content\">\n" ++
          concatAll (((splitLines text).filter fun l => !(jsTrim l == "")).map
            fun l => "<p>" ++ l ++ "</p>") ++ "\n</div>"
      ∧ formatOutput now "hello\nworld" "HTML" =
          "<div class=\"converted-content\">\n<p>hello</p><p>world</p>\n</div>" := by
  have h : ∀ t : String, formatOutput now t "HTML" =
      "<div class=\"converted-content\">\n" ++
        concatAll ((splitLines t).map htmlLine) ++ "\n</div>" := by
    intro t
    unfold formatOutput
    rw [if_neg (by decide : ¬ ("HTML" = "JSON")),
      if_neg (by decide : ¬ ("HTML" = "PDF" ∨ "HTML" = "EPUB")),
      if_pos rfl]
  constructor
  · rw [h, concatAll_htmlLine]
  · rw [h]
    decide

/-- C3: page breaks are decided per wrapped line — a line whose vertical
cursor has passed the content-area bottom bound `pageHeight - 15` is placed
on a new page at the reset top offset 20 (first conjunct); a body whose
wrapped line count exceeds the first page's 43-line capacity produces more
than one page (second conjunct); and every drawn line, the title included,
sits at a vertical position strictly between the margin 15 and
`pageHeight - 15` (third conjunct). -/
theorem generatePDF_pagination (lines : List String) :
    (∀ (st : PdfState) (line : String), pageHeightMM - 15 < (st.cursorY : ℚ) →
        pdfStep st line = ⟨st.page + 1, 26, st.drawn ++ [(st.page + 1, 20)]⟩)
      ∧ (firstPageCapacity < lines.length → 2 ≤ (generatePDF lines).page)
      ∧ (∀ pr ∈ (generatePDF lines).drawn,
          (15 : ℚ) < (pr.2 : ℚ) ∧ (pr.2 : ℚ) < pageHeightMM - 15) := by
  refine ⟨?_, ?_, ?_⟩
  · intro st line hc
    unfold pdfStep
    rw [if_pos hc]
  · intro hlen
    have h1 : 1 ≤ (generatePDF lines).page := pdf_page_mono lines ⟨1, 30, [(1, 20)]⟩
    by_contra hlt
    push_neg at hlt
    have hp : (lines.foldl pdfStep ⟨1, 30, [(1, 20)]⟩).page = 1 := by
      unfold generatePDF at h1 hlt
      omega
    have h43 := pdf_page_stays_cursor lines ⟨1, 30, [(1, 20)]⟩ hp 43
      (by simpa [firstPageCapacity] using hlen)
    norm_num [pageHeightMM] at h43
  · intro pr hpr
    have hr := pdf_drawn_in_range lines ⟨1, 30, [(1, 20)]⟩ (by norm_num)
      (by intro q hq; rcases List.mem_singleton.mp hq with rfl; exact ⟨by norm_num, by norm_num⟩)
      pr hpr
    constructor
    · have : (20 : ℚ) ≤ (pr.2 : ℚ) := by exact_mod_cast hr.1
      linarith
    · have : (pr.2 : ℚ) ≤ 282 := by exact_mod_cast hr.2
      have hb : (282 : ℚ) < pageHeightMM - 15 := by norm_num [pageHeightMM]
      linarith

/-- C3 (witness): the pagination theorem applied to a 44-line body, one line
beyond the first page's capacity, yields a document of at least two pages. -/
theorem generatePDF_pagination_w :
    firstPageCapacity < (List.replicate 44 "x").length
      ∧ 2 ≤ (generatePDF (List.replicate 44 "x")).page :=
  ⟨by decide, (generatePDF_pagination (List.replicate 44 "x")).2.1 (by decide)⟩

/-- C7: for every title and content, the archive produced by `createEPUB`
has as its first entry the file `mimetype`, stored with the explicit
no-compression option, whose content is exactly `application/epub+zip`;
the other four entries follow it in the stated order. -/
theorem createEPUB_mimetype_first (now : Nat) (title content : String) :
    (createEPUB now title content).head? =
        some ⟨"mimetype", "application/epub+zip", some "STORE"⟩
      ∧ (createEPUB now title content).map ZipEntry.path =
          ["mimetype", "META-INF/container.xml", "OEBPS/content.xhtml",
            "OEBPS/content.opf", "OEBPS/toc.ncx"] :=
  ⟨rfl, rfl⟩

theorem replaceChar_append (c : Char) (r l₁ l₂ : List Char) :
    replaceChar c r (l₁ ++ l₂) = replaceChar c r l₁ ++ replaceChar c r l₂ := by
  simp [replaceChar]

theorem cleanContentChars_append (l₁ l₂ : List Char) :
    cleanContentChars (l₁ ++ l₂) = cleanContentChars l₁ ++ cleanContentChars l₂ := by
  simp [cleanContentChars, replaceChar_append]

theorem cleanContentChars_single (x : Char) :
    cleanContentChars [x] = xmlEscapeChar x := by
  by_cases h1 : x = '&'
  · subst h1
    decide
  · by_cases h2 : x = '<'
    · subst h2
      decide
    · by_cases h3 : x = '>'
      · subst h3
        decide
      · by_cases h4 : x = '\n'
        · subst h4
          decide
        · simp [cleanContentChars, replaceChar, xmlEscapeChar, h1, h2, h3, h4]

/-- C9: the sequential global substitution of `createEPUB`'s body escaping
(ampersand first, then `<`, then `>`, then newline) coincides, on every
character list, with the single character-wise escaping map; in particular
`<` becomes `&lt;` and never the double-escaped `&amp;lt;`. -/
theorem cleanContent_charwise (l : List Char) :
    cleanContentChars l = xmlEscapeAll l
      ∧ cleanContent "<" = "&lt;"
      ∧ cleanContent "<" ≠ "&amp;lt;" := by
  refine ⟨?_, by decide, by decide⟩
  induction l with
  | nil => rfl
  | cons x xs ih =>
    have hx : x :: xs = [x] ++ xs := rfl
    rw [hx, cleanContentChars_append, cleanContentChars_single, ih]
    simp [xmlEscapeAll]

set_option maxRecDepth 100000 in
/-- C10: the title is interpolated verbatim into the generated content,
package and navigation documents — each of them contains the title wrapped
in the respective element markup, with no escaping applied: for the title
`A&<B` the generated XHTML contains the raw `A&<B` and none of the
documents contains an escaped form of the title's `&` or `<`. -/
theorem createEPUB_title_verbatim (now : Nat) (title content : String) :
    OccursIn ("<dc:title>" ++ title ++ "</dc:title>") (opfDoc title now)
      ∧ OccursIn ("<h1>" ++ title ++ "</h1>") (xhtmlDoc title (cleanContent content))
      ∧ OccursIn ("<docTitle><text>" ++ title ++ "</text></docTitle>") (ncxDoc title now)
      ∧ occursInB "A&<B" (xhtmlDoc "A&<B" (cleanContent "")) = true
      ∧ occursInB "&amp;" (xhtmlDoc "A&<B" (cleanContent "")) = false
      ∧ occursInB "&amp;" (opfDoc "A&<B" 0) = false
      ∧ occursInB "&lt;" (opfDoc "A&<B" 0) = false := by
  refine ⟨⟨opfHead, opfAfterTitle ++ toString now ++ opfTail, ?_⟩,
    ⟨xhtmlHead ++ title ++ xhtmlAfterTitle,
      xhtmlAfterH1 ++ cleanContent content ++ xhtmlTail, ?_⟩,
    ⟨ncxHead ++ toString now ++ ncxAfterUid, ncxTail, ?_⟩,
    by decide, by decide, by decide, by decide⟩
  · simp [opfDoc, String.append_assoc]
  · simp [xhtmlDoc, String.append_assoc]
  · simp [ncxDoc, String.append_assoc]

end LocalConverter
